import Mathlib

/-! Shallow embedding of the timeline-composition engine of the
no-code-architects-toolkit video combination services:
`services/v1/video/concatenate.py` (iterative, lead-in-aware planner),
`services/ffmpeg_toolkit.py` (cumulative-sum planner), and the
`/combine-videos` route schema in `routes/combine_videos.py`.
Durations are modelled as rationals, Python dynamic values as `PyVal`,
the synthesized ffmpeg filter graph as a list of tagged `FilterOp`s, and
the driver's I/O behaviour as an explicit event trace. -/

namespace NCAT

/-- Dynamic Python value, covering the cases the composition services
branch on: scalars (`str`, `float`, `int`; `bool` is an `int` subclass),
sequences (`list`, `tuple`), and a representative non-scalar non-sequence
value (`pnone`, standing for `None`, dicts, etc.). -/
inductive PyVal
  | pstr (s : String)
  | pfloat (q : ℚ)
  | pint (n : ℤ)
  | plist (l : List PyVal)
  | ptuple (l : List PyVal)
  | pnone
deriving Repr

/-- `isinstance(value, (str, float, int))` from `_normalize_list`. -/
def isScalarVal : PyVal → Bool
  | .pstr _ => true
  | .pfloat _ => true
  | .pint _ => true
  | _ => false

/-- `isinstance(value, (list, tuple))`: the elements when `value` is a
sequence, `none` otherwise. -/
def seqElems : PyVal → Option (List PyVal)
  | .plist l => some l
  | .ptuple l => some l
  | _ => none

/-- Python slice `l[:t]` with a possibly negative bound `t`:
nonnegative `t` keeps the first `t` elements, negative `t` counts from
the end (`len(l) + t`, clamped at zero). -/
def pySliceTo {α : Type} (l : List α) (t : ℤ) : List α :=
  if 0 ≤ t then l.take t.toNat
  else l.take ((l.length : ℤ) + t).toNat

/-- Python list repetition `[x] * t` (empty for `t ≤ 0`). -/
def pyListReplicate {α : Type} (x : α) (t : ℤ) : List α :=
  List.replicate t.toNat x

/-- Failure modes of `_normalize_list`: the explicit
`ValueError("Parameter must be a scalar or a list/tuple.")`
(the spec's `InvalidParameterShape`) and the implicit `IndexError`
raised by `lst[-1]` on an empty list. -/
inductive NormErr
  | invalidShape
  | indexErr
deriving DecidableEq, Repr

/-- `_normalize_list(value, target_len)` from
`services/v1/video/concatenate.py` lines 50-64 (textually identical in
`services/ffmpeg_toolkit.py` lines 48-62): replicate a scalar, pad a
short sequence with its last element, truncate a long one. -/
def normalize_list (value : PyVal) (target_len : ℤ) : Except NormErr (List PyVal) :=
  if isScalarVal value then
    Except.ok (pyListReplicate value target_len)
  else
    match seqElems value with
    | none => Except.error NormErr.invalidShape
    | some lst =>
        if (lst.length : ℤ) < target_len then
          match lst.getLast? with
          | none => Except.error NormErr.indexErr
          | some last =>
              Except.ok (pySliceTo (lst ++ pyListReplicate last (target_len - lst.length)) target_len)
        else
          Except.ok (pySliceTo lst target_len)

/-- Filter-pad labels used by the synthesized graph:
`v{i}` / `a{i}` for normalized inputs, `v{k}o` / `a{k}o` for the outputs
of join `k`. -/
inductive Label
  | vin (i : ℕ)
  | ain (i : ℕ)
  | vout (k : ℕ)
  | aout (k : ℕ)
deriving DecidableEq, Repr

/-- One node of the synthesized `filter_complex` graph, tagged with the
semantically relevant fields of the corresponding filter line (the fixed
parts of each ffmpeg filter chain are determined by the constructor). -/
inductive FilterOp
  | normalizeVideo (idx : ℕ)
  | normalizePadVideo (idx : ℕ) (prepadSecs : ℚ) (color : String)
  | normalizeAudioStream (idx : ℕ)
  | normalizeDelayAudioStream (idx : ℕ) (delayMs : ℤ)
  | synthesizeSilence (idx : ℕ) (secs : ℚ)
  | crossfadeVideo (left next : Label) (trans : String) (dur offset : ℚ) (out : Label)
  | crossfadeAudioStream (left next : Label) (dur : ℚ) (out : Label)
  | mapOutputs (v a : Label)
deriving DecidableEq, Repr

/-- Python `round` (banker's rounding, half to even), used by
`int(round(prepad[idx] * 1000))`. -/
def pyRound (q : ℚ) : ℤ :=
  let f := ⌊q⌋
  let r := q - f
  if r < 1/2 then f
  else if 1/2 < r then f + 1
  else if f % 2 = 0 then f else f + 1

/-- The offset carried by a video cross-fade node, `none` for every
other node. -/
def crossfadeVideoOffset : FilterOp → Option ℚ
  | .crossfadeVideo _ _ _ _ offset _ => some offset
  | _ => none

/-- All video cross-fade offsets of a plan, in emission order. -/
def videoOffsets (ops : List FilterOp) : List ℚ :=
  ops.filterMap crossfadeVideoOffset

/-- Does this node only exist for lead-in preservation (video tpad /
audio adelay)?  `process_video_combination` never emits such a node. -/
def isLeadInOp : FilterOp → Bool
  | .normalizePadVideo _ _ _ => true
  | .normalizeDelayAudioStream _ _ => true
  | _ => false

/-- Is this node a final output mapping? -/
def isMapOut : FilterOp → Bool
  | .mapOutputs _ _ => true
  | _ => false

/-- Is this node a join (cross-fade) node? -/
def isCrossfadeOp : FilterOp → Bool
  | .crossfadeVideo _ _ _ _ _ _ => true
  | .crossfadeAudioStream _ _ _ _ => true
  | _ => false

/-- Does this node produce the audio label `a{i}` of clip `i`
(a normalized real stream, a delayed real stream, or synthesized
silence)? -/
def assignsAudioLabel (op : FilterOp) (i : ℕ) : Bool :=
  match op with
  | .normalizeAudioStream j => j == i
  | .normalizeDelayAudioStream j _ => j == i
  | .synthesizeSilence j _ => j == i
  | _ => false

/-- Lead-in schedule, `concatenate.py` line 132:
`prepad = ([0.0] + d_norm[:]) if preserve_clip_starts else [0.0] * len(input_files)`. -/
def prepad_list (preserve_clip_starts : Bool) (d_norm : List ℚ) (n : ℕ) : List ℚ :=
  if preserve_clip_starts then 0 :: d_norm else List.replicate n 0

/-- Video filter line of clip `idx` in `process_video_concatenate`
(`concatenate.py` lines 141-154): normalize, plus a `tpad` lead-in when
`preserve_clip_starts and prepad[idx] > 0`. -/
def concat_video_op (preserve_clip_starts : Bool) (pad_color : String)
    (prepad : List ℚ) (idx : ℕ) : FilterOp :=
  if preserve_clip_starts ∧ 0 < prepad.getD idx 0 then
    FilterOp.normalizePadVideo idx (prepad.getD idx 0) pad_color
  else
    FilterOp.normalizeVideo idx

/-- Audio filter line of clip `idx` in `process_video_concatenate`
(`concatenate.py` lines 156-176): normalize / `adelay` the real audio
stream, or synthesize silence of
`durations[idx] + (prepad[idx] if preserve_clip_starts else 0.0)` seconds
when the clip has no audio stream. -/
def concat_audio_op (preserve_clip_starts : Bool) (durations prepad : List ℚ)
    (audio_flags : List Bool) (idx : ℕ) : FilterOp :=
  if audio_flags.getD idx false then
    if preserve_clip_starts ∧ 0 < prepad.getD idx 0 then
      FilterOp.normalizeDelayAudioStream idx (pyRound (prepad.getD idx 0 * 1000))
    else
      FilterOp.normalizeAudioStream idx
  else
    FilterOp.synthesizeSilence idx
      (durations.getD idx 0 + (if preserve_clip_starts then prepad.getD idx 0 else 0))

/-- Per-clip filter lines of `process_video_concatenate`
(`concatenate.py` lines 137-179), in emission order. -/
def concatClipOps (preserve_clip_starts : Bool) (pad_color : String)
    (durations prepad : List ℚ) (audio_flags : List Bool) (idx : ℕ) : List FilterOp :=
  [concat_video_op preserve_clip_starts pad_color prepad idx,
   concat_audio_op preserve_clip_starts durations prepad audio_flags idx]

/-- Join loop of `process_video_concatenate` (`concatenate.py` lines
182-206): starting with `current_len = durations[0]`, each join `k`
emits `xfade` at `offset = max(current_len - d_norm[k-1], 0.0)` plus an
`acrossfade`, then updates
`current_len += prepad[k] + durations[k] - d_norm[k-1]`.
Arguments: join index `k`, number of remaining joins, running video and
audio labels, running composed-timeline length.  Returns the emitted
nodes, the final labels, and the final composed length. -/
def concat_join_loop (transitions_norm : List String) (d_norm durations prepad : List ℚ) :
    ℕ → ℕ → Label → Label → ℚ → List FilterOp × Label × Label × ℚ
  | _, 0, current_v, current_a, current_len => ([], current_v, current_a, current_len)
  | k, r + 1, current_v, current_a, current_len =>
      let trans := transitions_norm.getD (k - 1) ""
      let d_k := d_norm.getD (k - 1) 0
      let offset := max (current_len - d_k) 0
      let rest := concat_join_loop transitions_norm d_norm durations prepad
        (k + 1) r (Label.vout k) (Label.aout k)
        (current_len + prepad.getD k 0 + durations.getD k 0 - d_k)
      (FilterOp.crossfadeVideo current_v (Label.vin k) trans d_k offset (Label.vout k) ::
         FilterOp.crossfadeAudioStream current_a (Label.ain k) d_k (Label.aout k) ::
         rest.1,
       rest.2)

/-- The transition-mode plan of `process_video_concatenate` together
with its final composed-timeline length. -/
structure TransitionPlan where
  ops : List FilterOp
  final_len : ℚ
deriving Repr

/-- Transition mode of `process_video_concatenate` (`concatenate.py`
lines 119-217) as a pure planner: lead-in schedule, per-clip normalize
nodes, chained cross-fades, and the final `-map` step for the last
output labels. -/
def process_video_concatenate_plan (n : ℕ) (durations : List ℚ) (audio_flags : List Bool)
    (transitions_norm : List String) (d_norm : List ℚ)
    (preserve_clip_starts : Bool) (pad_color : String) : TransitionPlan :=
  let prepad := prepad_list preserve_clip_starts d_norm n
  let clips := (List.range n).flatMap
    (concatClipOps preserve_clip_starts pad_color durations prepad audio_flags)
  let joins := concat_join_loop transitions_norm d_norm durations prepad
    1 (n - 1) (Label.vin 0) (Label.ain 0) (durations.getD 0 0)
  { ops := clips ++ joins.1 ++ [FilterOp.mapOutputs joins.2.1 joins.2.2.1],
    final_len := joins.2.2.2 }

/-- Closed recurrence for the running composed-timeline length of the
iterative planner: `current_len_spec 0 = durations[0]` and
`current_len_spec (j+1) = current_len_spec j + prepad[j+1] + durations[j+1] - d_norm[j]`
(value after join `j+1` has been processed). -/
def current_len_spec (durations d_norm prepad : List ℚ) : ℕ → ℚ
  | 0 => durations.getD 0 0
  | j + 1 => current_len_spec durations d_norm prepad j
      + prepad.getD (j + 1) 0 + durations.getD (j + 1) 0 - d_norm.getD j 0

/-- Audio filter line of clip `idx` in `process_video_combination`
(`ffmpeg_toolkit.py` lines 177-183): normalize the real audio stream, or
synthesize silence of `durations[idx]` seconds. -/
def combination_audio_op (durations : List ℚ) (audio_flags : List Bool) (idx : ℕ) : FilterOp :=
  if audio_flags.getD idx false then
    FilterOp.normalizeAudioStream idx
  else
    FilterOp.synthesizeSilence idx (durations.getD idx 0)

/-- Per-clip filter lines of `process_video_combination`
(`ffmpeg_toolkit.py` lines 170-185): normalize video and audio; no
lead-in. -/
def combinationClipOps (durations : List ℚ) (audio_flags : List Bool) (idx : ℕ) : List FilterOp :=
  [FilterOp.normalizeVideo idx,
   combination_audio_op durations audio_flags idx]

/-- Join loop of `process_video_combination` (`ffmpeg_toolkit.py` lines
188-212): `cum += durations[k-1]`, then
`offset = cum - (sum(durations_norm[:k-1]) if k > 1 else 0.0) - durations_norm[k-1]`,
with no clamping.  Returns the emitted nodes and the final labels. -/
def combination_join_loop (transitions_norm : List String) (durations_norm durations : List ℚ) :
    ℕ → ℕ → Label → Label → ℚ → List FilterOp × Label × Label
  | _, 0, current_v, current_a, _ => ([], current_v, current_a)
  | k, r + 1, current_v, current_a, cum =>
      let cum2 := cum + durations.getD (k - 1) 0
      let trans := transitions_norm.getD (k - 1) ""
      let d := durations_norm.getD (k - 1) 0
      let prev_d_sum := if 1 < k then (durations_norm.take (k - 1)).sum else 0
      let offset := cum2 - prev_d_sum - d
      let rest := combination_join_loop transitions_norm durations_norm durations
        (k + 1) r (Label.vout k) (Label.aout k) cum2
      (FilterOp.crossfadeVideo current_v (Label.vin k) trans d offset (Label.vout k) ::
         FilterOp.crossfadeAudioStream current_a (Label.ain k) d (Label.aout k) ::
         rest.1,
       rest.2)

/-- Transition mode of `process_video_combination` (`ffmpeg_toolkit.py`
lines 152-228) as a pure planner (`cum` starts at `0.0`, line 189). -/
def process_video_combination_plan (n : ℕ) (durations : List ℚ) (audio_flags : List Bool)
    (transitions_norm : List String) (durations_norm : List ℚ) : List FilterOp :=
  let clips := (List.range n).flatMap (combinationClipOps durations audio_flags)
  let joins := combination_join_loop transitions_norm durations_norm durations
    1 (n - 1) (Label.vin 0) (Label.ain 0) 0
  clips ++ joins.1 ++ [FilterOp.mapOutputs joins.2.1 joins.2.2]

/-- The property names of the `/combine-videos` JSON schema
(`routes/combine_videos.py` lines 31-71).  `additionalProperties` is
`False`, so these are the only keys a request may carry. -/
def combine_videos_schema_keys : List String :=
  ["video_urls", "webhook_url", "id", "use_transitions", "transitions",
   "transition_durations", "width", "height", "fps"]

/-- Key-level acceptance of the `/combine-videos` payload schema:
every supplied key must be a declared property
(`"additionalProperties": False`) and `video_urls` is required. -/
def combine_videos_payload_accepted (keys : List String) : Bool :=
  keys.all (fun k => combine_videos_schema_keys.contains k) &&
    keys.contains "video_urls"

/-- Keyword parameters of `process_video_concatenate` with their default
values (`concatenate.py` lines 67-77). -/
structure ConcatenateOpts where
  use_transitions : Bool := false
  transitions : PyVal := PyVal.pstr "fade"
  transition_durations : PyVal := PyVal.pfloat 1
  width : ℕ := 1280
  height : ℕ := 720
  fps : ℕ := 30
  preserve_clip_starts : Bool := true
  pad_color : String := "black"

/-- Externally observable I/O steps of the composition driver. -/
inductive Event
  | download (i : ℕ)
  | probeDuration (i : ℕ)
  | audioProbe (i : ℕ)
  | writeConcatList
  | runFFmpeg
  | removeConcatList
  | removeFile (i : ℕ)
deriving DecidableEq, Repr

/-- Fatal outcomes of `process_video_concatenate`.
`invalidParameterShape` is the `ValueError` raised by `_normalize_list`;
`indexErrRaised` its `IndexError` on an empty sequence;
`floatConvFailed` models `float(x)` failing on a non-numeric element;
`outputMissing` the final `FileNotFoundError` post-condition check. -/
inductive ConcatError
  | downloadFailed (i : ℕ)
  | probeFailed (i : ℕ)
  | insufficientClips
  | invalidParameterShape
  | indexErrRaised
  | floatConvFailed
  | transcodeFailed
  | outputMissing
deriving DecidableEq, Repr

/-- Map `_normalize_list` failures to driver errors. -/
def normErrTo : NormErr → ConcatError
  | NormErr.invalidShape => ConcatError.invalidParameterShape
  | NormErr.indexErr => ConcatError.indexErrRaised

/-- Outcomes of the external collaborators (file fetcher, media prober,
transcoding engine) injected into the driver.  `remove_ok` is the
outcome of each `os.remove` attempt; the code swallows removal failures
(`except: pass`), so the driver never reads it. -/
structure Env where
  download_ok : ℕ → Bool
  probe_ok : ℕ → Bool
  transcode_ok : Bool
  output_exists : Bool
  remove_ok : ℕ → Bool

/-- Download loop (`concatenate.py` lines 90-93): clip `i` is fetched;
on failure the exception aborts the request at once.  Arguments: the
fetcher's outcome per clip, first index, number of remaining clips. -/
def download_loop (download_ok : ℕ → Bool) : ℕ → ℕ → List Event × Except ConcatError Unit
  | _, 0 => ([], Except.ok ())
  | i, r + 1 =>
      if download_ok i then
        let rest := download_loop download_ok (i + 1) r
        (Event.download i :: rest.1, rest.2)
      else
        ([Event.download i], Except.error (ConcatError.downloadFailed i))

/-- Duration-probe loop (`concatenate.py` line 124, `check=True`):
`ffprobe` failure raises and aborts. -/
def probe_loop (probe_ok : ℕ → Bool) : ℕ → ℕ → List Event × Except ConcatError Unit
  | _, 0 => ([], Except.ok ())
  | i, r + 1 =>
      if probe_ok i then
        let rest := probe_loop probe_ok (i + 1) r
        (Event.probeDuration i :: rest.1, rest.2)
      else
        ([Event.probeDuration i], Except.error (ConcatError.probeFailed i))

/-- `float(x)` on a `_normalize_list` element, modelled for numeric
values (parsing of numeric strings is not exercised by any claim). -/
def pyFloatNum : PyVal → Option ℚ
  | PyVal.pfloat q => some q
  | PyVal.pint n => some (n : ℚ)
  | _ => none

/-- `[float(x) for x in lst]`, failing if any element fails. -/
def floatList : List PyVal → Option (List ℚ)
  | [] => some []
  | v :: rest =>
      match pyFloatNum v with
      | none => none
      | some q => (floatList rest).map (fun l => q :: l)

/-- Cleanup loop plus output post-condition (`concatenate.py` lines
226-236): every input file gets an `os.remove` attempt (failures
swallowed), then the output must exist. -/
def cleanup_and_check (env : Env) (evs : List Event) (n : ℕ) :
    List Event × Except ConcatError Unit :=
  let evs2 := evs ++ (List.range n).map Event.removeFile
  if env.output_exists then (evs2, Except.ok ())
  else (evs2, Except.error ConcatError.outputMissing)

/-- Control-flow and I/O skeleton of `process_video_concatenate`
(`concatenate.py` lines 84-242), as an event trace plus outcome.
Downloads happen first for every clip; the single-clip and concat
fast paths run ffmpeg directly; transition mode probes every clip
(durations with `check=True`, then audio presence, which cannot raise),
normalizes `transitions` then `transition_durations`, converts the
latter with `float`, and runs ffmpeg.  The cleanup loop and the
output-existence check run only after the chosen branch succeeded; the
`except` handler re-raises without any cleanup.  (The synthesized filter
graph itself is modelled by `process_video_concatenate_plan`.) -/
def process_video_concatenate (env : Env) (n : ℕ) (use_transitions : Bool)
    (transitions transition_durations : PyVal) :
    List Event × Except ConcatError Unit :=
  let dl := download_loop env.download_ok 0 n
  match dl.2 with
  | Except.error e => (dl.1, Except.error e)
  | Except.ok _ =>
    if n == 1 && !use_transitions then
      if env.transcode_ok then
        cleanup_and_check env (dl.1 ++ [Event.runFFmpeg]) n
      else
        (dl.1 ++ [Event.runFFmpeg], Except.error ConcatError.transcodeFailed)
    else if !use_transitions then
      if env.transcode_ok then
        cleanup_and_check env
          (dl.1 ++ [Event.writeConcatList, Event.runFFmpeg, Event.removeConcatList]) n
      else
        (dl.1 ++ [Event.writeConcatList, Event.runFFmpeg],
         Except.error ConcatError.transcodeFailed)
    else
      if n < 2 then (dl.1, Except.error ConcatError.insufficientClips)
      else
        let pr := probe_loop env.probe_ok 0 n
        match pr.2 with
        | Except.error e => (dl.1 ++ pr.1, Except.error e)
        | Except.ok _ =>
          let pre := dl.1 ++ pr.1 ++ (List.range n).map Event.audioProbe
          match normalize_list transitions ((n : ℤ) - 1) with
          | Except.error e => (pre, Except.error (normErrTo e))
          | Except.ok _transitions_norm =>
            match normalize_list transition_durations ((n : ℤ) - 1) with
            | Except.error e => (pre, Except.error (normErrTo e))
            | Except.ok d_vals =>
              match floatList d_vals with
              | none => (pre, Except.error ConcatError.floatConvFailed)
              | some _d_norm =>
                if env.transcode_ok then
                  cleanup_and_check env (pre ++ [Event.runFFmpeg]) n
                else
                  (pre ++ [Event.runFFmpeg], Except.error ConcatError.transcodeFailed)

/-- Environment in which every external collaborator succeeds. -/
def env_allok : Env :=
  { download_ok := fun _ => true, probe_ok := fun _ => true,
    transcode_ok := true, output_exists := true, remove_ok := fun _ => true }

/-- Environment in which the transcoding engine fails. -/
def env_transcode_fail : Env := { env_allok with transcode_ok := false }

/-- Was an empty sequence supplied? -/
def isEmptySeqVal : PyVal → Bool
  | PyVal.plist [] => true
  | PyVal.ptuple [] => true
  | _ => false

/-- The failure condition asserted by the specification for the
Parameter Normalizer: "fails ... if `value` is neither a scalar nor a
sequence, or if `targetLength ≤ 0` and a sequence was supplied empty". -/
def c9_claim_fail_cond (value : PyVal) (t : ℤ) : Bool :=
  (!isScalarVal value && !(seqElems value).isSome) ||
    (decide (t ≤ 0) && isEmptySeqVal value)

end NCAT

namespace NCAT

/-! ## General list lemmas -/

/-- Appending one more element to a prefix adds the element at that
index (`getD` with default `0` stalls harmlessly past the end). -/
theorem sum_take_succ_getD (l : List ℚ) : ∀ j : ℕ,
    (l.take (j + 1)).sum = (l.take j).sum + l.getD j 0 := by
  induction l with
  | nil => intro j; simp [List.getD]
  | cons x xs ih =>
      intro j
      cases j with
      | zero => simp [List.getD]
      | succ j => simp only [List.take_succ_cons, List.sum_cons, ih j,
          List.getD_cons_succ]; ring

/-- `getD` on a replicated zero list is zero at every index. -/
theorem getD_replicate_zero : ∀ (n i : ℕ), (List.replicate n (0 : ℚ)).getD i 0 = 0 := by
  intro n
  induction n with
  | zero => intro i; simp [List.getD]
  | succ n ih =>
      intro i
      cases i with
      | zero => simp [List.replicate_succ]
      | succ i => simp [List.replicate_succ, List.getD_cons_succ, ih i]

end NCAT

namespace NCAT

/-! ## Parameter Normalizer (C9, C3) -/

/-- Behaviour of `_normalize_list` on a sequence argument, for positive
target lengths: an empty sequence hits `lst[-1]` (IndexError); a
non-empty one always yields exactly `target_len` elements. -/
theorem normalize_list_seq_spec (v : PyVal) (l : List PyVal) (t : ℤ) (ht : 1 ≤ t)
    (hsc : isScalarVal v = false) (hsq : seqElems v = some l) :
    (normalize_list v t = Except.error NormErr.invalidShape ↔ False) ∧
    (normalize_list v t = Except.error NormErr.indexErr ↔ l = []) ∧
    (∀ res, normalize_list v t = Except.ok res → (res.length : ℤ) = t) := by
  have hnorm : normalize_list v t =
      (if (l.length : ℤ) < t then
        match l.getLast? with
        | none => Except.error NormErr.indexErr
        | some last =>
            Except.ok (pySliceTo (l ++ pyListReplicate last (t - l.length)) t)
      else Except.ok (pySliceTo l t)) := by
    simp [normalize_list, hsc, hsq]
  cases l with
  | nil =>
      have hlt : ((List.nil (α := PyVal)).length : ℤ) < t := by simp; omega
      rw [hnorm, if_pos hlt]
      refine ⟨by simp, by simp, by simp⟩
  | cons x xs =>
      by_cases hlt : ((x :: xs).length : ℤ) < t
      · rw [hnorm, if_pos hlt]
        cases hy : (x :: xs).getLast? with
        | none => simp [List.getLast?_eq_none_iff] at hy
        | some y =>
            refine ⟨by simp, by simp, ?_⟩
            intro res hres
            simp only [Except.ok.injEq] at hres
            subst hres
            simp only [pySliceTo, if_pos (by omega : (0:ℤ) ≤ t),
              List.length_take, List.length_append, List.length_cons,
              pyListReplicate, List.length_replicate]
            simp only [List.length_cons] at hlt
            omega
      · rw [hnorm, if_neg hlt]
        refine ⟨by simp, by simp, ?_⟩
        intro res hres
        simp only [Except.ok.injEq] at hres
        subst hres
        simp only [pySliceTo, if_pos (by omega : (0:ℤ) ≤ t),
          List.length_take, List.length_cons]
        simp only [List.length_cons] at hlt
        omega

/-- Claim C9, amended: for `targetLength ≥ 1`, `_normalize_list` fails
with the shape error iff the value is neither a scalar nor a sequence,
fails with an index error iff the supplied sequence is empty (contrary
to the claim, which predicated emptiness failure on `targetLength ≤ 0`),
and in every other case returns exactly `targetLength` elements. -/
theorem c9_amended_normalize (value : PyVal) (t : ℤ) (ht : 1 ≤ t) :
    (normalize_list value t = Except.error NormErr.invalidShape ↔
      (isScalarVal value = false ∧ seqElems value = none)) ∧
    (normalize_list value t = Except.error NormErr.indexErr ↔ seqElems value = some []) ∧
    (∀ l, normalize_list value t = Except.ok l → (l.length : ℤ) = t) := by
  cases value with
  | pstr s =>
      refine ⟨by simp [normalize_list, isScalarVal, seqElems],
        by simp [normalize_list, isScalarVal, seqElems], ?_⟩
      intro l hl
      simp only [normalize_list, isScalarVal, if_pos, Except.ok.injEq,
        pyListReplicate] at hl
      subst hl
      simp only [List.length_replicate]
      omega
  | pfloat q =>
      refine ⟨by simp [normalize_list, isScalarVal, seqElems],
        by simp [normalize_list, isScalarVal, seqElems], ?_⟩
      intro l hl
      simp only [normalize_list, isScalarVal, if_pos, Except.ok.injEq,
        pyListReplicate] at hl
      subst hl
      simp only [List.length_replicate]
      omega
  | pint m =>
      refine ⟨by simp [normalize_list, isScalarVal, seqElems],
        by simp [normalize_list, isScalarVal, seqElems], ?_⟩
      intro l hl
      simp only [normalize_list, isScalarVal, if_pos, Except.ok.injEq,
        pyListReplicate] at hl
      subst hl
      simp only [List.length_replicate]
      omega
  | pnone =>
      refine ⟨by simp [normalize_list, isScalarVal, seqElems],
        by simp [normalize_list, isScalarVal, seqElems], ?_⟩
      intro l hl
      simp [normalize_list, isScalarVal, seqElems] at hl
  | plist l =>
      have h := normalize_list_seq_spec (PyVal.plist l) l t ht rfl rfl
      refine ⟨?_, ?_, h.2.2⟩
      · rw [h.1]; simp [seqElems]
      · rw [h.2.1]; simp [seqElems]
  | ptuple l =>
      have h := normalize_list_seq_spec (PyVal.ptuple l) l t ht rfl rfl
      refine ⟨?_, ?_, h.2.2⟩
      · rw [h.1]; simp [seqElems]
      · rw [h.2.1]; simp [seqElems]

/-- Claim C9 witness: a scalar broadcast to three elements. -/
theorem c9_witness :
    ((NCAT.normalize_list (PyVal.pstr "fade") 3 = Except.error NormErr.invalidShape ↔
      (isScalarVal (PyVal.pstr "fade") = false ∧ seqElems (PyVal.pstr "fade") = none)) ∧
    (normalize_list (PyVal.pstr "fade") 3 = Except.error NormErr.indexErr ↔
      seqElems (PyVal.pstr "fade") = some []) ∧
    (∀ l, normalize_list (PyVal.pstr "fade") 3 = Except.ok l → (l.length : ℤ) = 3)) :=
  c9_amended_normalize (PyVal.pstr "fade") 3 (by decide)

/-- Claim C9 counterexample: `_normalize_list([], 1)`.  The claim's
failure condition is false here (`[]` is a sequence and
`targetLength = 1 > 0`), so the claim predicts a 1-element result, but
the code fails with an `IndexError` from `lst[-1]`. -/
theorem c9_counterexample :
    c9_claim_fail_cond (PyVal.plist []) 1 = false ∧
    normalize_list (PyVal.plist []) 1 = Except.error NormErr.indexErr :=
  ⟨rfl, rfl⟩

/-- Claim C3: the lead-in schedule is all zeros when preservation is
disabled; when enabled it has length `N`, starts with `0`, and carries
`d_norm[i-1]` at every later index `i`. -/
theorem c3_lead_in_schedule (d_norm : List ℚ) (n : ℕ)
    (hd : d_norm.length = n - 1) (hn : 1 ≤ n) :
    prepad_list false d_norm n = List.replicate n 0 ∧
    (prepad_list true d_norm n).length = n ∧
    (prepad_list true d_norm n).getD 0 0 = 0 ∧
    (∀ i, 1 ≤ i → i < n →
      (prepad_list true d_norm n).getD i 0 = d_norm.getD (i - 1) 0) := by
  refine ⟨rfl, ?_, rfl, ?_⟩
  · simp only [prepad_list, if_pos, List.length_cons, hd]
    omega
  · intro i h1 h2
    obtain ⟨j, rfl⟩ : ∃ j, i = j + 1 := ⟨i - 1, by omega⟩
    simp [prepad_list]

/-- Claim C3 witness: the spec's worked example,
`transitionDurations = [1, 1.5]`, three clips. -/
theorem c3_witness :
    (prepad_list false [1, 3/2] 3 = List.replicate 3 0 ∧
    (prepad_list true [1, 3/2] 3).length = 3 ∧
    (prepad_list true [1, 3/2] 3).getD 0 0 = 0 ∧
    (∀ i, 1 ≤ i → i < 3 →
      (prepad_list true [1, 3/2] 3).getD i 0 = ([1, 3/2] : List ℚ).getD (i - 1) 0)) :=
  c3_lead_in_schedule [1, 3/2] 3 rfl (by decide)

end NCAT

namespace NCAT

/-! ## Iterative join loop of `process_video_concatenate` (C1, C2, C5) -/

/-- The join loop emits exactly one video cross-fade per join. -/
theorem concat_join_loop_offsets_length (t : List String) (d dur pre : List ℚ) :
    ∀ (r k : ℕ) (cv ca : Label) (c : ℚ),
      (videoOffsets (concat_join_loop t d dur pre k r cv ca c).1).length = r := by
  intro r
  induction r with
  | zero => intro k cv ca c; rfl
  | succ r ih =>
      intro k cv ca c
      simp only [concat_join_loop, videoOffsets, List.filterMap_cons, crossfadeVideoOffset]
      rw [List.length_cons]
      exact congrArg (· + 1) (ih (k + 1) (Label.vout k) (Label.aout k) _)

/-- Each emitted offset is the clamped difference between the running
composed length (characterized by `current_len_spec`) and the
corresponding transition duration. -/
theorem concat_join_loop_offsets_getD (t : List String) (d dur pre : List ℚ) :
    ∀ (r j : ℕ) (cv ca : Label) (m : ℕ), m < r →
      (videoOffsets (concat_join_loop t d dur pre (j + 1) r cv ca
          (current_len_spec dur d pre j)).1).getD m 0
        = max (current_len_spec dur d pre (j + m) - d.getD (j + m) 0) 0 := by
  intro r
  induction r with
  | zero => intro j cv ca m hm; exact absurd hm (Nat.not_lt_zero m)
  | succ r ih =>
      intro j cv ca m hm
      simp only [concat_join_loop, Nat.add_sub_cancel, videoOffsets,
        List.filterMap_cons, crossfadeVideoOffset]
      cases m with
      | zero => simp
      | succ m =>
          rw [List.getD_cons_succ]
          have harg : current_len_spec dur d pre j + pre.getD (j + 1) 0
              + dur.getD (j + 1) 0 - d.getD j 0 = current_len_spec dur d pre (j + 1) := rfl
          rw [harg]
          have h := ih (j + 1) (Label.vout (j + 1)) (Label.aout (j + 1)) m (by omega)
          simp only [videoOffsets] at h
          have hidx : j + 1 + m = j + (m + 1) := by omega
          rw [hidx] at h
          exact h

/-- The loop's final running length satisfies the `current_len_spec`
recurrence. -/
theorem concat_join_loop_final_len (t : List String) (d dur pre : List ℚ) :
    ∀ (r j : ℕ) (cv ca : Label),
      (concat_join_loop t d dur pre (j + 1) r cv ca
          (current_len_spec dur d pre j)).2.2.2
        = current_len_spec dur d pre (j + r) := by
  intro r
  induction r with
  | zero => intro j cv ca; rfl
  | succ r ih =>
      intro j cv ca
      simp only [concat_join_loop, Nat.add_sub_cancel]
      have harg : current_len_spec dur d pre j + pre.getD (j + 1) 0
          + dur.getD (j + 1) 0 - d.getD j 0 = current_len_spec dur d pre (j + 1) := rfl
      rw [harg]
      have h := ih (j + 1) (Label.vout (j + 1)) (Label.aout (j + 1))
      have hidx : j + 1 + r = j + (r + 1) := by omega
      rw [hidx] at h
      exact h

/-- After at least one join the running labels are the outputs of the
last processed join. -/
theorem concat_join_loop_final_labels (t : List String) (d dur pre : List ℚ) :
    ∀ (r k : ℕ) (cv ca : Label) (c : ℚ), 1 ≤ r →
      (concat_join_loop t d dur pre k r cv ca c).2.1 = Label.vout (k + r - 1) ∧
      (concat_join_loop t d dur pre k r cv ca c).2.2.1 = Label.aout (k + r - 1) := by
  intro r
  induction r with
  | zero => intro k cv ca c h; exact absurd h (by omega)
  | succ r ih =>
      intro k cv ca c _
      simp only [concat_join_loop]
      cases r with
      | zero => simp [concat_join_loop]
      | succ s =>
          have h := ih (k + 1) (Label.vout k) (Label.aout k)
            (c + pre.getD k 0 + dur.getD k 0 - d.getD (k - 1) 0) (by omega)
          have hidx : k + 1 + (s + 1) - 1 = k + (s + 1 + 1) - 1 := by omega
          rw [hidx] at h
          exact h

/-- Every offset emitted by the iterative loop is nonnegative (the
`max(..., 0.0)` clamp). -/
theorem concat_join_loop_offsets_nonneg (t : List String) (d dur pre : List ℚ) :
    ∀ (r k : ℕ) (cv ca : Label) (c q : ℚ),
      q ∈ videoOffsets (concat_join_loop t d dur pre k r cv ca c).1 → 0 ≤ q := by
  intro r
  induction r with
  | zero => intro k cv ca c q h; simp [videoOffsets, concat_join_loop] at h
  | succ r ih =>
      intro k cv ca c q h
      simp only [concat_join_loop, videoOffsets, List.filterMap_cons,
        crossfadeVideoOffset, List.mem_cons] at h
      rcases h with rfl | h
      · exact le_max_right _ _
      · exact ih (k + 1) (Label.vout k) (Label.aout k) _ q h

/-- The iterative join loop only emits cross-fade nodes. -/
theorem concat_join_loop_ops_crossfade (t : List String) (d dur pre : List ℚ) :
    ∀ (r k : ℕ) (cv ca : Label) (c : ℚ) (op : FilterOp),
      op ∈ (concat_join_loop t d dur pre k r cv ca c).1 → isCrossfadeOp op = true := by
  intro r
  induction r with
  | zero => intro k cv ca c op h; simp [concat_join_loop] at h
  | succ r ih =>
      intro k cv ca c op h
      simp only [concat_join_loop, List.mem_cons] at h
      rcases h with rfl | rfl | h
      · rfl
      · rfl
      · exact ih (k + 1) (Label.vout k) (Label.aout k) _ op h

/-- The cumulative-sum join loop of `process_video_combination` only
emits cross-fade nodes. -/
theorem combination_join_loop_ops_crossfade (t : List String) (dn dur : List ℚ) :
    ∀ (r k : ℕ) (cv ca : Label) (c : ℚ) (op : FilterOp),
      op ∈ (combination_join_loop t dn dur k r cv ca c).1 → isCrossfadeOp op = true := by
  intro r
  induction r with
  | zero => intro k cv ca c op h; simp [combination_join_loop] at h
  | succ r ih =>
      intro k cv ca c op h
      simp only [combination_join_loop, List.mem_cons] at h
      rcases h with rfl | rfl | h
      · rfl
      · rfl
      · exact ih (k + 1) (Label.vout k) (Label.aout k) _ op h

/-- Offsets of the cumulative-sum loop: at join `k = j + m + 1` the
offset is `sum(durations[:k]) - sum(durations_norm[:k-1]) - durations_norm[k-1]`,
with no clamping. -/
theorem combination_join_loop_offsets_getD (t : List String) (dn dur : List ℚ) :
    ∀ (r j : ℕ) (cv ca : Label) (m : ℕ), m < r →
      (videoOffsets (combination_join_loop t dn dur (j + 1) r cv ca
          ((dur.take j).sum)).1).getD m 0
        = (dur.take (j + m + 1)).sum - (dn.take (j + m)).sum - dn.getD (j + m) 0 := by
  intro r
  induction r with
  | zero => intro j cv ca m hm; exact absurd hm (Nat.not_lt_zero m)
  | succ r ih =>
      intro j cv ca m hm
      simp only [combination_join_loop, Nat.add_sub_cancel, videoOffsets,
        List.filterMap_cons, crossfadeVideoOffset]
      have hcum : (dur.take j).sum + dur.getD j 0 = (dur.take (j + 1)).sum :=
        (sum_take_succ_getD dur j).symm
      rw [hcum]
      have hprev : (if 1 < j + 1 then (dn.take j).sum else 0) = (dn.take j).sum := by
        rcases Nat.eq_zero_or_pos j with rfl | hj
        · simp
        · rw [if_pos (by omega)]
      rw [hprev]
      cases m with
      | zero => simp
      | succ m =>
          rw [List.getD_cons_succ]
          have h := ih (j + 1) (Label.vout (j + 1)) (Label.aout (j + 1)) m (by omega)
          simp only [videoOffsets] at h
          have hidx : j + 1 + m = j + (m + 1) := by omega
          rw [hidx] at h
          exact h

/-- With an all-zero lead-in schedule the running composed length is the
cumulative clip length minus the cumulative transition length. -/
theorem current_len_spec_zero_prepad (dur dn : List ℚ) (n : ℕ) :
    ∀ j, current_len_spec dur dn (List.replicate n 0) j
      = (dur.take (j + 1)).sum - (dn.take j).sum := by
  intro j
  induction j with
  | zero => simp [current_len_spec, sum_take_succ_getD dur 0]
  | succ j ih =>
      simp only [current_len_spec, ih, getD_replicate_zero,
        sum_take_succ_getD dur (j + 1), sum_take_succ_getD dn j]
      ring

end NCAT

namespace NCAT

/-- Per-clip nodes carry no video cross-fade offset. -/
theorem concatClipOps_offset_none (p : Bool) (pc : String) (dur pre : List ℚ)
    (fl : List Bool) (idx : ℕ) (op : FilterOp)
    (h : op ∈ concatClipOps p pc dur pre fl idx) : crossfadeVideoOffset op = none := by
  simp only [concatClipOps, List.mem_cons, List.not_mem_nil, or_false] at h
  rcases h with rfl | rfl
  · unfold concat_video_op; split_ifs <;> rfl
  · unfold concat_audio_op; split_ifs <;> rfl

/-- The per-clip section of the concatenate plan contributes no video
cross-fade offsets. -/
theorem videoOffsets_concat_clips (p : Bool) (pc : String) (dur pre : List ℚ)
    (fl : List Bool) (l : List ℕ) :
    videoOffsets (l.flatMap (concatClipOps p pc dur pre fl)) = [] := by
  unfold videoOffsets
  rw [List.filterMap_eq_nil_iff]
  intro op hop
  rw [List.mem_flatMap] at hop
  obtain ⟨j, _, hj⟩ := hop
  exact concatClipOps_offset_none p pc dur pre fl j op hj

/-- Claim C1: in transition mode, starting from `currentLen = d_0`, the
planner emits at join `k` the offset `max(currentLen - t_{k-1}, 0)` and
then updates `currentLen` by `+ prepad[k] + d_k - t_{k-1}` (the
recurrence `current_len_spec`); there are `N - 1` offsets and the loop's
final running value is the composed timeline length
`current_len_spec (N-1)`. -/
theorem c1_iterative_offsets (n : ℕ) (durations d_norm prepad : List ℚ)
    (transitions_norm : List String) (hn : 2 ≤ n)
    (hdur : durations.length = n) (hd : d_norm.length = n - 1) :
    (videoOffsets (concat_join_loop transitions_norm d_norm durations prepad 1 (n - 1)
        (Label.vin 0) (Label.ain 0) (durations.getD 0 0)).1).length = n - 1 ∧
    (∀ k, 1 ≤ k → k ≤ n - 1 →
      (videoOffsets (concat_join_loop transitions_norm d_norm durations prepad 1 (n - 1)
          (Label.vin 0) (Label.ain 0) (durations.getD 0 0)).1).getD (k - 1) 0
        = max (current_len_spec durations d_norm prepad (k - 1)
            - d_norm.getD (k - 1) 0) 0) ∧
    (concat_join_loop transitions_norm d_norm durations prepad 1 (n - 1)
        (Label.vin 0) (Label.ain 0) (durations.getD 0 0)).2.2.2
      = current_len_spec durations d_norm prepad (n - 1) := by
  have e0 : durations.getD 0 0 = current_len_spec durations d_norm prepad 0 := rfl
  refine ⟨concat_join_loop_offsets_length _ _ _ _ _ _ _ _ _, ?_, ?_⟩
  · intro k h1 h2
    rw [e0]
    have h := concat_join_loop_offsets_getD transitions_norm d_norm durations prepad
      (n - 1) 0 (Label.vin 0) (Label.ain 0) (k - 1) (by omega)
    simpa using h
  · rw [e0]
    have h := concat_join_loop_final_len transitions_norm d_norm durations prepad
      (n - 1) 0 (Label.vin 0) (Label.ain 0)
    simpa using h

/-- Claim C1 witness: the spec's worked example — clips `[5, 4, 6]`,
transition durations `[1, 1.5]`, lead-in `[0, 1, 1.5]`. -/
theorem c1_witness :
    (videoOffsets (concat_join_loop ["fade", "fade"] [1, 3/2] [5, 4, 6] [0, 1, 3/2]
        1 (3 - 1) (Label.vin 0) (Label.ain 0) (([5, 4, 6] : List ℚ).getD 0 0)).1).length = 3 - 1 ∧
    (∀ k, 1 ≤ k → k ≤ 3 - 1 →
      (videoOffsets (concat_join_loop ["fade", "fade"] [1, 3/2] [5, 4, 6] [0, 1, 3/2]
          1 (3 - 1) (Label.vin 0) (Label.ain 0) (([5, 4, 6] : List ℚ).getD 0 0)).1).getD (k - 1) 0
        = max (current_len_spec [5, 4, 6] [1, 3/2] [0, 1, 3/2] (k - 1)
            - ([1, 3/2] : List ℚ).getD (k - 1) 0) 0) ∧
    (concat_join_loop ["fade", "fade"] [1, 3/2] [5, 4, 6] [0, 1, 3/2]
        1 (3 - 1) (Label.vin 0) (Label.ain 0) (([5, 4, 6] : List ℚ).getD 0 0)).2.2.2
      = current_len_spec [5, 4, 6] [1, 3/2] [0, 1, 3/2] (3 - 1) :=
  c1_iterative_offsets 3 [5, 4, 6] [1, 3/2] [0, 1, 3/2] ["fade", "fade"]
    (by decide) rfl rfl

/-- Claim C2, amended: every video cross-fade offset in the plan of
`process_video_concatenate` is nonnegative for every input; the claim as
stated fails for `process_video_combination` (see the counterexample),
whose cumulative formula has no clamp. -/
theorem c2_amended_offsets_nonneg (n : ℕ) (durations : List ℚ) (audio_flags : List Bool)
    (transitions_norm : List String) (d_norm : List ℚ) (preserve_clip_starts : Bool)
    (pad_color : String) (q : ℚ)
    (hq : q ∈ videoOffsets (process_video_concatenate_plan n durations audio_flags
        transitions_norm d_norm preserve_clip_starts pad_color).ops) : 0 ≤ q := by
  unfold process_video_concatenate_plan at hq
  simp only [videoOffsets, List.filterMap_append, List.mem_append] at hq
  rcases hq with (hq | hq) | hq
  · have h0 := videoOffsets_concat_clips preserve_clip_starts pad_color durations
      (prepad_list preserve_clip_starts d_norm n) audio_flags (List.range n)
    unfold videoOffsets at h0
    rw [h0] at hq
    exact absurd hq (List.not_mem_nil q)
  · exact concat_join_loop_offsets_nonneg transitions_norm d_norm durations
      (prepad_list preserve_clip_starts d_norm n) (n - 1) 1 (Label.vin 0) (Label.ain 0)
      (durations.getD 0 0) q hq
  · simp [crossfadeVideoOffset] at hq

/-- Claim C2 witness: with clips `[1, 1]` and transition duration `1`,
the single emitted offset `max(1 - 1, 0) = 0` is in the plan and is
nonnegative. -/
theorem c2_witness :
    (0 : ℚ) ∈ videoOffsets (process_video_concatenate_plan 2 [1, 1] [true, true]
      ["fade"] [1] true "black").ops ∧ (0 : ℚ) ≤ 0 := by
  have hm : (0 : ℚ) ∈ videoOffsets (process_video_concatenate_plan 2 [1, 1] [true, true]
      ["fade"] [1] true "black").ops := by
    simp [process_video_concatenate_plan, prepad_list, concatClipOps, concat_video_op,
      concat_audio_op, concat_join_loop, videoOffsets, crossfadeVideoOffset,
      List.range_succ, List.filterMap_append, sub_self, max_self]
  exact ⟨hm, c2_amended_offsets_nonneg 2 [1, 1] [true, true] ["fade"] [1] true "black" 0 hm⟩

/-- Claim C2 counterexample: `process_video_combination` with clip
durations `[1, 1]` and transition duration `5` emits the cross-fade
offset `1 - 0 - 5 = -4 < 0` (the cumulative formula has no clamp), so
"every cross-fade video operation ... has an offset >= 0" fails on the
`ffmpeg_toolkit.py` path cited by the claim. -/
theorem c2_counterexample :
    (-4 : ℚ) ∈ videoOffsets (process_video_combination_plan 2 [1, 1] [true, true]
      ["fade"] [5]) ∧ ¬ (0 : ℚ) ≤ (-4 : ℚ) := by
  constructor
  · norm_num [videoOffsets, process_video_combination_plan, combination_join_loop,
      combinationClipOps, combination_audio_op, crossfadeVideoOffset, List.range_succ,
      List.filterMap_append]
  · norm_num

/-- Claim C5: with lead-in preservation disabled and no clamping at any
join, the iterative planner of `process_video_concatenate` and the
cumulative-sum planner of `process_video_combination` compute the same
offset at every join. -/
theorem c5_refinement (n : ℕ) (durations d_norm : List ℚ) (transitions_norm : List String)
    (hn : 2 ≤ n) (hdur : durations.length = n) (hd : d_norm.length = n - 1)
    (noclamp : ∀ j, j < n - 1 →
      d_norm.getD j 0 ≤ current_len_spec durations d_norm (prepad_list false d_norm n) j) :
    ∀ k, 1 ≤ k → k ≤ n - 1 →
      (videoOffsets (concat_join_loop transitions_norm d_norm durations
          (prepad_list false d_norm n) 1 (n - 1) (Label.vin 0) (Label.ain 0)
          (durations.getD 0 0)).1).getD (k - 1) 0
        = (videoOffsets (combination_join_loop transitions_norm d_norm durations
            1 (n - 1) (Label.vin 0) (Label.ain 0) 0).1).getD (k - 1) 0 := by
  intro k hk1 hk2
  have hm : k - 1 < n - 1 := by omega
  have hz : prepad_list false d_norm n = List.replicate n 0 := rfl
  have e0 : durations.getD 0 0
      = current_len_spec durations d_norm (prepad_list false d_norm n) 0 := rfl
  rw [e0]
  have hL := concat_join_loop_offsets_getD transitions_norm d_norm durations
    (prepad_list false d_norm n) (n - 1) 0 (Label.vin 0) (Label.ain 0) (k - 1) hm
  simp only [Nat.zero_add] at hL
  rw [hL]
  have hR := combination_join_loop_offsets_getD transitions_norm d_norm durations
    (n - 1) 0 (Label.vin 0) (Label.ain 0) (k - 1) hm
  simp only [Nat.zero_add, List.take_zero, List.sum_nil] at hR
  rw [hR]
  have hspec := current_len_spec_zero_prepad durations d_norm n (k - 1)
  rw [hz, hspec]
  have hg := noclamp (k - 1) hm
  rw [hz, hspec] at hg
  rw [max_eq_left (sub_nonneg.mpr hg)]

/-- Claim C5 witness: clips `[5, 4, 6]`, transition durations
`[1, 1.5]`, no lead-in, second join (`k = 2`); neither join clamps. -/
theorem c5_witness :
    (videoOffsets (concat_join_loop ["fade", "fade"] [1, 3/2] [5, 4, 6]
        (prepad_list false [1, 3/2] 3) 1 (3 - 1) (Label.vin 0) (Label.ain 0)
        (([5, 4, 6] : List ℚ).getD 0 0)).1).getD (2 - 1) 0
      = (videoOffsets (combination_join_loop ["fade", "fade"] [1, 3/2] [5, 4, 6]
          1 (3 - 1) (Label.vin 0) (Label.ain 0) 0).1).getD (2 - 1) 0 :=
  c5_refinement 3 [5, 4, 6] [1, 3/2] ["fade", "fade"] (by decide) rfl rfl
    (by
      intro j hj
      interval_cases j <;>
        norm_num [current_len_spec, prepad_list, getD_replicate_zero])
    2 (by decide) (by decide)

end NCAT

namespace NCAT

/-! ## Silence synthesis and output mapping (C8, C10), lead-in-free
combination plan (C4) -/

/-- Membership of a silence-synthesis node in the concatenate plan is
exactly: the clip exists, it has no audio stream, and the silence spans
`durations[i] + (prepad[i] if preserve_clip_starts else 0)`. -/
theorem silence_mem_concat_plan (n : ℕ) (durations : List ℚ) (audio_flags : List Bool)
    (transitions_norm : List String) (d_norm : List ℚ) (p : Bool) (pc : String)
    (i : ℕ) (s : ℚ) :
    FilterOp.synthesizeSilence i s ∈ (process_video_concatenate_plan n durations
        audio_flags transitions_norm d_norm p pc).ops ↔
      (i < n ∧ audio_flags.getD i false = false ∧
        s = durations.getD i 0
          + (if p then (prepad_list p d_norm n).getD i 0 else 0)) := by
  unfold process_video_concatenate_plan
  constructor
  · intro h
    simp only [List.mem_append] at h
    rcases h with (h | h) | h
    · rw [List.mem_flatMap] at h
      obtain ⟨j, hj, hmem⟩ := h
      rw [List.mem_range] at hj
      simp only [concatClipOps, List.mem_cons, List.not_mem_nil, or_false] at hmem
      rcases hmem with h | h
      · unfold concat_video_op at h
        split_ifs at h
      · unfold concat_audio_op at h
        by_cases hfl : audio_flags.getD j false = true
        · rw [if_pos hfl] at h
          split_ifs at h
        · rw [if_neg hfl] at h
          simp only [FilterOp.synthesizeSilence.injEq] at h
          obtain ⟨rfl, rfl⟩ := h
          exact ⟨hj, by simpa using hfl, rfl⟩
    · have hc := concat_join_loop_ops_crossfade transitions_norm d_norm durations
        (prepad_list p d_norm n) (n - 1) 1 (Label.vin 0) (Label.ain 0)
        (durations.getD 0 0) _ h
      simp [isCrossfadeOp] at hc
    · simp at h
  · rintro ⟨hi, hfl, rfl⟩
    apply List.mem_append.mpr
    left
    apply List.mem_append.mpr
    left
    rw [List.mem_flatMap]
    refine ⟨i, List.mem_range.mpr hi, ?_⟩
    simp only [concatClipOps, List.mem_cons]
    right; left
    unfold concat_audio_op
    rw [if_neg (show ¬(audio_flags.getD i false = true) from by rw [hfl]; simp)]

/-- Claim C8: in transition mode a silent stereo 48 kHz source is
synthesized for clip `i` exactly when the clip has no audio stream, and
it spans `durations[i] + prepad[i]` seconds when lead-in preservation is
enabled, else `durations[i]` seconds. -/
theorem c8_silence_synthesis (n : ℕ) (durations : List ℚ) (audio_flags : List Bool)
    (transitions_norm : List String) (d_norm : List ℚ) (preserve_clip_starts : Bool)
    (pad_color : String) (i : ℕ) (hi : i < n) :
    ((∃ secs, FilterOp.synthesizeSilence i secs ∈ (process_video_concatenate_plan n
        durations audio_flags transitions_norm d_norm preserve_clip_starts pad_color).ops)
      ↔ audio_flags.getD i false = false) ∧
    (∀ secs, FilterOp.synthesizeSilence i secs ∈ (process_video_concatenate_plan n
        durations audio_flags transitions_norm d_norm preserve_clip_starts pad_color).ops →
      secs = (if preserve_clip_starts
              then durations.getD i 0
                + (prepad_list preserve_clip_starts d_norm n).getD i 0
              else durations.getD i 0)) := by
  constructor
  · constructor
    · rintro ⟨secs, hs⟩
      exact ((silence_mem_concat_plan n durations audio_flags transitions_norm d_norm
        preserve_clip_starts pad_color i secs).mp hs).2.1
    · intro hfl
      exact ⟨_, (silence_mem_concat_plan n durations audio_flags transitions_norm d_norm
        preserve_clip_starts pad_color i _).mpr ⟨hi, hfl, rfl⟩⟩
  · intro secs hs
    have h := (silence_mem_concat_plan n durations audio_flags transitions_norm d_norm
      preserve_clip_starts pad_color i secs).mp hs
    rw [h.2.2]
    split_ifs <;> simp

/-- Claim C8 witness: two clips, the second without audio, lead-in
enabled. -/
theorem c8_witness :
    ((∃ secs, FilterOp.synthesizeSilence 1 secs ∈ (process_video_concatenate_plan 2
        [2, 3] [true, false] ["fade"] [1] true "black").ops)
      ↔ ([true, false] : List Bool).getD 1 false = false) ∧
    (∀ secs, FilterOp.synthesizeSilence 1 secs ∈ (process_video_concatenate_plan 2
        [2, 3] [true, false] ["fade"] [1] true "black").ops →
      secs = (if true
              then ([2, 3] : List ℚ).getD 1 0 + (prepad_list true [1] 2).getD 1 0
              else ([2, 3] : List ℚ).getD 1 0)) :=
  c8_silence_synthesis 2 [2, 3] [true, false] ["fade"] [1] true "black" 1 (by decide)

/-- The audio filter line of clip `idx` always produces that clip's
audio label. -/
theorem concat_audio_op_assigns (p : Bool) (dur pre : List ℚ) (fl : List Bool) (idx : ℕ) :
    assignsAudioLabel (concat_audio_op p dur pre fl idx) idx = true := by
  unfold concat_audio_op
  split_ifs <;> simp [assignsAudioLabel]

/-- Per-clip nodes are never output mappings. -/
theorem concatClipOps_not_map (p : Bool) (pc : String) (dur pre : List ℚ)
    (fl : List Bool) (idx : ℕ) (op : FilterOp)
    (h : op ∈ concatClipOps p pc dur pre fl idx) : isMapOut op = false := by
  simp only [concatClipOps, List.mem_cons, List.not_mem_nil, or_false] at h
  rcases h with rfl | rfl
  · unfold concat_video_op; split_ifs <;> rfl
  · unfold concat_audio_op; split_ifs <;> rfl

/-- Cross-fade nodes are never output mappings. -/
theorem crossfade_not_map (op : FilterOp) (h : isCrossfadeOp op = true) :
    isMapOut op = false := by
  cases op <;> simp_all [isCrossfadeOp, isMapOut]

/-- Cross-fade nodes are never lead-in nodes. -/
theorem crossfade_not_leadin (op : FilterOp) (h : isCrossfadeOp op = true) :
    isLeadInOp op = false := by
  cases op <;> simp_all [isCrossfadeOp, isLeadInOp]

/-- Per-clip nodes of `process_video_combination` are never lead-in
nodes (there is no tpad/adelay in that code path). -/
theorem combinationClipOps_not_leadin (dur : List ℚ) (fl : List Bool) (idx : ℕ)
    (op : FilterOp) (h : op ∈ combinationClipOps dur fl idx) : isLeadInOp op = false := by
  simp only [combinationClipOps, List.mem_cons, List.not_mem_nil, or_false] at h
  rcases h with rfl | rfl
  · rfl
  · unfold combination_audio_op; split_ifs <;> rfl

/-- The plan of `process_video_combination` contains no lead-in node. -/
theorem combination_plan_no_leadin (n : ℕ) (durations : List ℚ) (audio_flags : List Bool)
    (transitions_norm : List String) (durations_norm : List ℚ) :
    (process_video_combination_plan n durations audio_flags transitions_norm
      durations_norm).all (fun op => !isLeadInOp op) = true := by
  rw [List.all_eq_true]
  intro op hop
  unfold process_video_combination_plan at hop
  simp only [List.mem_append] at hop
  rcases hop with (h | h) | h
  · rw [List.mem_flatMap] at h
    obtain ⟨j, _, hj⟩ := h
    simp [combinationClipOps_not_leadin durations audio_flags j op hj]
  · have hc := combination_join_loop_ops_crossfade transitions_norm durations_norm
      durations (n - 1) 1 (Label.vin 0) (Label.ain 0) 0 op h
    simp [crossfade_not_leadin op hc]
  · simp only [List.mem_singleton] at h
    subst h
    rfl

/-- Claim C10: for `N ≥ 2` every clip gets an audio label (real stream
or synthesized silence), the plan's final step maps `v{N-1}o` and
`a{N-1}o` to the output, and there is exactly one output-mapping step. -/
theorem c10_audio_and_output_mapping (n : ℕ) (durations : List ℚ)
    (audio_flags : List Bool) (transitions_norm : List String) (d_norm : List ℚ)
    (preserve_clip_starts : Bool) (pad_color : String) (hn : 2 ≤ n) :
    (∀ i, i < n → ∃ op ∈ (process_video_concatenate_plan n durations audio_flags
        transitions_norm d_norm preserve_clip_starts pad_color).ops,
      assignsAudioLabel op i = true) ∧
    ((process_video_concatenate_plan n durations audio_flags transitions_norm d_norm
        preserve_clip_starts pad_color).ops.getLast?
      = some (FilterOp.mapOutputs (Label.vout (n - 1)) (Label.aout (n - 1)))) ∧
    (((process_video_concatenate_plan n durations audio_flags transitions_norm d_norm
        preserve_clip_starts pad_color).ops.filter isMapOut).length = 1) := by
  unfold process_video_concatenate_plan
  refine ⟨?_, ?_, ?_⟩
  · intro i hi
    refine ⟨concat_audio_op preserve_clip_starts durations
      (prepad_list preserve_clip_starts d_norm n) audio_flags i, ?_, ?_⟩
    · apply List.mem_append.mpr
      left
      apply List.mem_append.mpr
      left
      rw [List.mem_flatMap]
      exact ⟨i, List.mem_range.mpr hi, by simp [concatClipOps]⟩
    · exact concat_audio_op_assigns preserve_clip_starts durations
        (prepad_list preserve_clip_starts d_norm n) audio_flags i
  · rw [List.getLast?_concat]
    have hl := concat_join_loop_final_labels transitions_norm d_norm durations
      (prepad_list preserve_clip_starts d_norm n) (n - 1) 1 (Label.vin 0) (Label.ain 0)
      (durations.getD 0 0) (by omega)
    have hidx : 1 + (n - 1) - 1 = n - 1 := by omega
    rw [hidx] at hl
    rw [hl.1, hl.2]
  · rw [List.filter_append, List.filter_append]
    have h1 : List.filter isMapOut ((List.range n).flatMap (concatClipOps
        preserve_clip_starts pad_color durations
        (prepad_list preserve_clip_starts d_norm n) audio_flags)) = [] := by
      rw [List.filter_eq_nil_iff]
      intro op hop
      rw [List.mem_flatMap] at hop
      obtain ⟨j, _, hj⟩ := hop
      simp [concatClipOps_not_map preserve_clip_starts pad_color durations
        (prepad_list preserve_clip_starts d_norm n) audio_flags j op hj]
    have h2 : List.filter isMapOut (concat_join_loop transitions_norm d_norm durations
        (prepad_list preserve_clip_starts d_norm n) 1 (n - 1) (Label.vin 0) (Label.ain 0)
        (durations.getD 0 0)).1 = [] := by
      rw [List.filter_eq_nil_iff]
      intro op hop
      have hc := concat_join_loop_ops_crossfade transitions_norm d_norm durations
        (prepad_list preserve_clip_starts d_norm n) (n - 1) 1 (Label.vin 0) (Label.ain 0)
        (durations.getD 0 0) op hop
      simp [crossfade_not_map op hc]
    rw [h1, h2]
    rfl

/-- Claim C10 witness: two clips, neither with audio. -/
theorem c10_witness :
    (∀ i, i < 2 → ∃ op ∈ (process_video_concatenate_plan 2 [2, 3] [false, false]
        ["fade"] [1] true "black").ops, assignsAudioLabel op i = true) ∧
    ((process_video_concatenate_plan 2 [2, 3] [false, false] ["fade"] [1] true
        "black").ops.getLast?
      = some (FilterOp.mapOutputs (Label.vout (2 - 1)) (Label.aout (2 - 1)))) ∧
    (((process_video_concatenate_plan 2 [2, 3] [false, false] ["fade"] [1] true
        "black").ops.filter isMapOut).length = 1) :=
  c10_audio_and_output_mapping 2 [2, 3] [false, false] ["fade"] [1] true "black"
    (by decide)

/-- Claim C4 counterexample: the `/combine-videos` schema declares
`additionalProperties: False` and no lead-in keys, so a request
supplying `preserveClipStarts` or `padColor` (in either spelling) is
rejected, contradicting "a request supplying them is accepted". -/
theorem c4_counterexample :
    combine_videos_payload_accepted ["video_urls", "preserveClipStarts"] = false ∧
    combine_videos_payload_accepted ["video_urls", "padColor"] = false := by
  constructor <;> decide

/-- Claim C4, amended: the `/combine-videos` route accepts requests
without the lead-in keys but rejects requests supplying them (in the
code's snake_case spelling as well); the options
`preserve_clip_starts : bool = True` and `pad_color : str = "black"`
exist only on the service function `process_video_concatenate`, while
the route's delegate `process_video_combination` composes with no
lead-in node at all. -/
theorem c4_amended_options :
    combine_videos_payload_accepted ["video_urls"] = true ∧
    combine_videos_payload_accepted ["video_urls", "preserve_clip_starts"] = false ∧
    combine_videos_payload_accepted ["video_urls", "pad_color"] = false ∧
    ({} : ConcatenateOpts).preserve_clip_starts = true ∧
    ({} : ConcatenateOpts).pad_color = "black" ∧
    (∀ (n : ℕ) (durations : List ℚ) (audio_flags : List Bool)
        (transitions_norm : List String) (durations_norm : List ℚ),
      (process_video_combination_plan n durations audio_flags transitions_norm
        durations_norm).all (fun op => !isLeadInOp op) = true) :=
  ⟨by decide, by decide, by decide, rfl, rfl,
    fun n durations audio_flags transitions_norm durations_norm =>
      combination_plan_no_leadin n durations audio_flags transitions_norm durations_norm⟩

end NCAT

namespace NCAT

/-! ## Driver control flow and I/O trace (C6, C7) -/

/-- If every fetch succeeds the download loop succeeds. -/
theorem download_loop_ok (dlok : ℕ → Bool) (h : ∀ i, dlok i = true) :
    ∀ (r i : ℕ), (download_loop dlok i r).2 = Except.ok () := by
  intro r
  induction r with
  | zero => intro i; rfl
  | succ r ih =>
      intro i
      simp only [download_loop, h i, if_true]
      exact ih (i + 1)

/-- If every fetch succeeds, every clip in range is downloaded. -/
theorem download_loop_mem (dlok : ℕ → Bool) (h : ∀ i, dlok i = true) :
    ∀ (r i m : ℕ), i ≤ m → m < i + r →
      Event.download m ∈ (download_loop dlok i r).1 := by
  intro r
  induction r with
  | zero => intro i m h1 h2; omega
  | succ r ih =>
      intro i m h1 h2
      simp only [download_loop, h i, if_true]
      by_cases hm : m = i
      · subst hm; exact List.mem_cons_self _ _
      · exact List.mem_cons_of_mem _ (ih (i + 1) m (by omega) (by omega))

/-- The download loop emits only download events. -/
theorem download_loop_events (dlok : ℕ → Bool) :
    ∀ (r i : ℕ) (e : Event), e ∈ (download_loop dlok i r).1 →
      ∃ m, e = Event.download m := by
  intro r
  induction r with
  | zero => intro i e he; simp [download_loop] at he
  | succ r ih =>
      intro i e he
      by_cases hd : dlok i = true
      · simp only [download_loop, hd, if_true] at he
        rcases List.mem_cons.mp he with rfl | he2
        · exact ⟨i, rfl⟩
        · exact ih (i + 1) e he2
      · simp only [download_loop, hd] at he
        simp at he
        exact ⟨i, he⟩

/-- The download loop only fails with a download failure. -/
theorem download_loop_error (dlok : ℕ → Bool) :
    ∀ (r i : ℕ) (e : ConcatError), (download_loop dlok i r).2 = Except.error e →
      ∃ m, e = ConcatError.downloadFailed m := by
  intro r
  induction r with
  | zero => intro i e he; simp [download_loop] at he
  | succ r ih =>
      intro i e he
      by_cases hd : dlok i = true
      · simp only [download_loop, hd, if_true] at he
        exact ih (i + 1) e he
      · simp only [download_loop, hd] at he
        simp at he
        exact ⟨i, he.symm⟩

/-- If every probe succeeds the probe loop succeeds. -/
theorem probe_loop_ok (prok : ℕ → Bool) (h : ∀ i, prok i = true) :
    ∀ (r i : ℕ), (probe_loop prok i r).2 = Except.ok () := by
  intro r
  induction r with
  | zero => intro i; rfl
  | succ r ih =>
      intro i
      simp only [probe_loop, h i, if_true]
      exact ih (i + 1)

/-- If every probe succeeds, every clip in range is probed. -/
theorem probe_loop_mem (prok : ℕ → Bool) (h : ∀ i, prok i = true) :
    ∀ (r i m : ℕ), i ≤ m → m < i + r →
      Event.probeDuration m ∈ (probe_loop prok i r).1 := by
  intro r
  induction r with
  | zero => intro i m h1 h2; omega
  | succ r ih =>
      intro i m h1 h2
      simp only [probe_loop, h i, if_true]
      by_cases hm : m = i
      · subst hm; exact List.mem_cons_self _ _
      · exact List.mem_cons_of_mem _ (ih (i + 1) m (by omega) (by omega))

/-- The probe loop emits only duration-probe events. -/
theorem probe_loop_events (prok : ℕ → Bool) :
    ∀ (r i : ℕ) (e : Event), e ∈ (probe_loop prok i r).1 →
      ∃ m, e = Event.probeDuration m := by
  intro r
  induction r with
  | zero => intro i e he; simp [probe_loop] at he
  | succ r ih =>
      intro i e he
      by_cases hd : prok i = true
      · simp only [probe_loop, hd, if_true] at he
        rcases List.mem_cons.mp he with rfl | he2
        · exact ⟨i, rfl⟩
        · exact ih (i + 1) e he2
      · simp only [probe_loop, hd] at he
        simp at he
        exact ⟨i, he⟩

/-- The probe loop only fails with a probe failure. -/
theorem probe_loop_error (prok : ℕ → Bool) :
    ∀ (r i : ℕ) (e : ConcatError), (probe_loop prok i r).2 = Except.error e →
      ∃ m, e = ConcatError.probeFailed m := by
  intro r
  induction r with
  | zero => intro i e he; simp [probe_loop] at he
  | succ r ih =>
      intro i e he
      by_cases hd : prok i = true
      · simp only [probe_loop, hd, if_true] at he
        exact ih (i + 1) e he
      · simp only [probe_loop, hd] at he
        simp at he
        exact ⟨i, he.symm⟩

/-- A value that is neither scalar nor sequence makes `_normalize_list`
raise the shape error. -/
theorem normalize_list_invalid (v : PyVal) (t : ℤ)
    (h1 : isScalarVal v = false) (h2 : seqElems v = none) :
    normalize_list v t = Except.error NormErr.invalidShape := by
  simp [normalize_list, h1, h2]

end NCAT

namespace NCAT

/-- With all downloads and probes succeeding and `use_transitions` set,
the driver reduces to the parameter-normalization and transcode stage,
with every clip already downloaded and probed in the trace prefix. -/
theorem driver_transition_reduce (env : Env) (n : ℕ) (v dv : PyVal)
    (hn : 2 ≤ n)
    (hdlok : (download_loop env.download_ok 0 n).2 = Except.ok ())
    (hprok : (probe_loop env.probe_ok 0 n).2 = Except.ok ()) :
    process_video_concatenate env n true v dv =
      (let pre := (download_loop env.download_ok 0 n).1
          ++ (probe_loop env.probe_ok 0 n).1
          ++ (List.range n).map Event.audioProbe
       match normalize_list v ((n : ℤ) - 1) with
       | Except.error e => (pre, Except.error (normErrTo e))
       | Except.ok _ =>
         match normalize_list dv ((n : ℤ) - 1) with
         | Except.error e => (pre, Except.error (normErrTo e))
         | Except.ok d_vals =>
           match floatList d_vals with
           | none => (pre, Except.error ConcatError.floatConvFailed)
           | some _ =>
             if env.transcode_ok then
               cleanup_and_check env (pre ++ [Event.runFFmpeg]) n
             else
               (pre ++ [Event.runFFmpeg],
                Except.error ConcatError.transcodeFailed)) := by
  have hn1 : (n == 1) = false := by
    rw [beq_eq_false_iff_ne]
    omega
  have hn2 : ¬ (n < 2) := by omega
  simp [process_video_concatenate, hdlok, hprok, hn1, hn2]

end NCAT

namespace NCAT

/-- Claim C6 counterexample: with two clips, transitions enabled and a
malformed `transitions` value (`None`), the request does fail with
`InvalidParameterShape` — but only after both clips were downloaded and
probed, contradicting "before any file I/O: no clip is downloaded and no
clip is probed". -/
theorem c6_counterexample :
    (process_video_concatenate env_allok 2 true PyVal.pnone (PyVal.pfloat 1)).2
      = Except.error ConcatError.invalidParameterShape ∧
    Event.download 0 ∈ (process_video_concatenate env_allok 2 true PyVal.pnone
      (PyVal.pfloat 1)).1 ∧
    Event.download 1 ∈ (process_video_concatenate env_allok 2 true PyVal.pnone
      (PyVal.pfloat 1)).1 ∧
    Event.probeDuration 0 ∈ (process_video_concatenate env_allok 2 true PyVal.pnone
      (PyVal.pfloat 1)).1 ∧
    Event.probeDuration 1 ∈ (process_video_concatenate env_allok 2 true PyVal.pnone
      (PyVal.pfloat 1)).1 :=
  ⟨rfl, by decide, by decide, by decide, by decide⟩

/-- Claim C6, amended: a malformed `transitions` or
`transition_durations` option does fail the request with
`InvalidParameterShape`, but the error is raised only after every clip
has been downloaded and duration-probed — the normalization happens
after all file I/O of the input stage, not before it. -/
theorem c6_amended_late_failure (env : Env) (n : ℕ) (v dv : PyVal)
    (hn : 2 ≤ n)
    (hdl : ∀ i, env.download_ok i = true) (hpr : ∀ i, env.probe_ok i = true)
    (hbad : (isScalarVal v = false ∧ seqElems v = none) ∨
      ((∃ tl, normalize_list v ((n : ℤ) - 1) = Except.ok tl) ∧
        isScalarVal dv = false ∧ seqElems dv = none)) :
    (process_video_concatenate env n true v dv).2
      = Except.error ConcatError.invalidParameterShape ∧
    (∀ i, i < n →
      Event.download i ∈ (process_video_concatenate env n true v dv).1 ∧
      Event.probeDuration i ∈ (process_video_concatenate env n true v dv).1) := by
  have hdlok := download_loop_ok env.download_ok hdl n 0
  have hprok := probe_loop_ok env.probe_ok hpr n 0
  have hred := driver_transition_reduce env n v dv hn hdlok hprok
  have htrace : ∀ i, i < n →
      Event.download i ∈ (download_loop env.download_ok 0 n).1
          ++ (probe_loop env.probe_ok 0 n).1
          ++ (List.range n).map Event.audioProbe ∧
      Event.probeDuration i ∈ (download_loop env.download_ok 0 n).1
          ++ (probe_loop env.probe_ok 0 n).1
          ++ (List.range n).map Event.audioProbe := by
    intro i hi
    constructor
    · exact List.mem_append_left _ (List.mem_append_left _
        (download_loop_mem env.download_ok hdl n 0 i (by omega) (by omega)))
    · exact List.mem_append_left _ (List.mem_append_right _
        (probe_loop_mem env.probe_ok hpr n 0 i (by omega) (by omega)))
  rcases hbad with ⟨h1, h2⟩ | ⟨⟨tl, htl⟩, h1, h2⟩
  · have hv := normalize_list_invalid v ((n : ℤ) - 1) h1 h2
    rw [hred]
    simp only [hv]
    exact ⟨rfl, htrace⟩
  · have hv := normalize_list_invalid dv ((n : ℤ) - 1) h1 h2
    rw [hred]
    simp only [htl, hv]
    exact ⟨rfl, htrace⟩

/-- Claim C6 witness: the fully successful environment with two clips
and `transitions = None`. -/
theorem c6_witness :
    (process_video_concatenate env_allok 2 true PyVal.pnone (PyVal.pint 1)).2
      = Except.error ConcatError.invalidParameterShape ∧
    (∀ i, i < 2 →
      Event.download i ∈ (process_video_concatenate env_allok 2 true PyVal.pnone
        (PyVal.pint 1)).1 ∧
      Event.probeDuration i ∈ (process_video_concatenate env_allok 2 true PyVal.pnone
        (PyVal.pint 1)).1) :=
  c6_amended_late_failure env_allok 2 PyVal.pnone (PyVal.pint 1) (by decide)
    (fun _ => rfl) (fun _ => rfl) (Or.inl ⟨rfl, rfl⟩)

end NCAT

namespace NCAT

/-- The cleanup phase ends in success or the output-missing error. -/
theorem cleanup_and_check_result (env : Env) (evs : List Event) (n : ℕ) :
    (cleanup_and_check env evs n).2 = Except.ok () ∨
    (cleanup_and_check env evs n).2 = Except.error ConcatError.outputMissing := by
  unfold cleanup_and_check
  split_ifs <;> simp

/-- The cleanup phase attempts to remove every input file. -/
theorem cleanup_and_check_removes (env : Env) (evs : List Event) (n i : ℕ)
    (hi : i < n) :
    Event.removeFile i ∈ (cleanup_and_check env evs n).1 := by
  unfold cleanup_and_check
  split_ifs <;>
    exact List.mem_append_right _ (List.mem_map.mpr ⟨i, List.mem_range.mpr hi, rfl⟩)

/-- Every run of the driver either reaches the cleanup phase (with no
removal attempted before it) or fails earlier with a
non-`outputMissing` error and no removal in its trace at all. -/
theorem driver_exit_cases (env : Env) (n : ℕ) (ut : Bool) (v dv : PyVal) :
    (∃ evs, process_video_concatenate env n ut v dv = cleanup_and_check env evs n ∧
      ∀ i, Event.removeFile i ∉ evs) ∨
    (∃ e, e ≠ ConcatError.outputMissing ∧
      (process_video_concatenate env n ut v dv).2 = Except.error e ∧
      ∀ i, Event.removeFile i ∉ (process_video_concatenate env n ut v dv).1) := by
  have hdl_nr : ∀ i, Event.removeFile i ∉ (download_loop env.download_ok 0 n).1 := by
    intro i hi
    obtain ⟨m, hm⟩ := download_loop_events env.download_ok n 0 _ hi
    simp at hm
  have hpr_nr : ∀ i, Event.removeFile i ∉ (probe_loop env.probe_ok 0 n).1 := by
    intro i hi
    obtain ⟨m, hm⟩ := probe_loop_events env.probe_ok n 0 _ hi
    simp at hm
  have hap_nr : ∀ i, Event.removeFile i ∉ (List.range n).map Event.audioProbe := by
    intro i hi
    simp [List.mem_map] at hi
  cases hdl : (download_loop env.download_ok 0 n).2 with
  | error e =>
      right
      obtain ⟨m, rfl⟩ := download_loop_error env.download_ok n 0 e hdl
      simp only [process_video_concatenate, hdl]
      exact ⟨ConcatError.downloadFailed m, by simp, rfl, hdl_nr⟩
  | ok u =>
      simp only [process_video_concatenate, hdl]
      by_cases hb1 : (n == 1 && !ut) = true
      · rw [if_pos hb1]
        by_cases htr : env.transcode_ok = true
        · rw [if_pos htr]
          left
          refine ⟨(download_loop env.download_ok 0 n).1 ++ [Event.runFFmpeg], rfl, ?_⟩
          intro i hi
          rcases List.mem_append.mp hi with h | h
          · exact hdl_nr i h
          · simp at h
        · rw [if_neg htr]
          right
          refine ⟨ConcatError.transcodeFailed, by simp, rfl, ?_⟩
          intro i hi
          rcases List.mem_append.mp hi with h | h
          · exact hdl_nr i h
          · simp at h
      · rw [if_neg hb1]
        by_cases hb2 : (!ut) = true
        · rw [if_pos hb2]
          by_cases htr : env.transcode_ok = true
          · rw [if_pos htr]
            left
            refine ⟨(download_loop env.download_ok 0 n).1
              ++ [Event.writeConcatList, Event.runFFmpeg, Event.removeConcatList],
              rfl, ?_⟩
            intro i hi
            rcases List.mem_append.mp hi with h | h
            · exact hdl_nr i h
            · simp at h
          · rw [if_neg htr]
            right
            refine ⟨ConcatError.transcodeFailed, by simp, rfl, ?_⟩
            intro i hi
            rcases List.mem_append.mp hi with h | h
            · exact hdl_nr i h
            · simp at h
        · rw [if_neg hb2]
          by_cases hlt : n < 2
          · rw [if_pos hlt]
            right
            exact ⟨ConcatError.insufficientClips, by simp, rfl, hdl_nr⟩
          · rw [if_neg hlt]
            cases hpr : (probe_loop env.probe_ok 0 n).2 with
            | error e =>
                simp only [hpr]
                right
                obtain ⟨m, rfl⟩ := probe_loop_error env.probe_ok n 0 e hpr
                refine ⟨ConcatError.probeFailed m, by simp, rfl, ?_⟩
                intro i hi
                rcases List.mem_append.mp hi with h | h
                · exact hdl_nr i h
                · exact hpr_nr i h
            | ok u2 =>
                simp only [hpr]
                have hpre_nr : ∀ i, Event.removeFile i ∉
                    (download_loop env.download_ok 0 n).1
                      ++ (probe_loop env.probe_ok 0 n).1
                      ++ (List.range n).map Event.audioProbe := by
                  intro i hi
                  rcases List.mem_append.mp hi with h | h
                  · rcases List.mem_append.mp h with h2 | h2
                    · exact hdl_nr i h2
                    · exact hpr_nr i h2
                  · exact hap_nr i h
                cases hv : normalize_list v ((n : ℤ) - 1) with
                | error en =>
                    simp only [hv]
                    right
                    refine ⟨normErrTo en, by cases en <;> simp [normErrTo], rfl, hpre_nr⟩
                | ok tl =>
                    simp only [hv]
                    cases hdv : normalize_list dv ((n : ℤ) - 1) with
                    | error en =>
                        simp only [hdv]
                        right
                        refine ⟨normErrTo en, by cases en <;> simp [normErrTo], rfl,
                          hpre_nr⟩
                    | ok tl2 =>
                        simp only [hdv]
                        cases hfl : floatList tl2 with
                        | none =>
                            simp only [hfl]
                            right
                            exact ⟨ConcatError.floatConvFailed, by simp, rfl, hpre_nr⟩
                        | some ql =>
                            simp only [hfl]
                            by_cases htr : env.transcode_ok = true
                            · rw [if_pos htr]
                              left
                              refine ⟨(download_loop env.download_ok 0 n).1
                                ++ (probe_loop env.probe_ok 0 n).1
                                ++ (List.range n).map Event.audioProbe
                                ++ [Event.runFFmpeg], rfl, ?_⟩
                              intro i hi
                              rcases List.mem_append.mp hi with h | h
                              · exact hpre_nr i h
                              · simp at h
                            · rw [if_neg htr]
                              right
                              refine ⟨ConcatError.transcodeFailed, by simp, rfl, ?_⟩
                              intro i hi
                              rcases List.mem_append.mp hi with h | h
                              · exact hpre_nr i h
                              · simp at h

end NCAT

namespace NCAT

/-- Claim C7 counterexample: with two clips (no transitions) and a
failing transcode, both clips were downloaded but no `os.remove` attempt
appears in the trace — the `except` handler re-raises without cleanup,
contradicting "on every exit path ... every input temporary file ... is
removed". -/
theorem c7_counterexample :
    (process_video_concatenate env_transcode_fail 2 false (PyVal.pstr "fade")
        (PyVal.pfloat 1)).2 = Except.error ConcatError.transcodeFailed ∧
    Event.download 0 ∈ (process_video_concatenate env_transcode_fail 2 false
      (PyVal.pstr "fade") (PyVal.pfloat 1)).1 ∧
    Event.download 1 ∈ (process_video_concatenate env_transcode_fail 2 false
      (PyVal.pstr "fade") (PyVal.pfloat 1)).1 ∧
    Event.removeFile 0 ∉ (process_video_concatenate env_transcode_fail 2 false
      (PyVal.pstr "fade") (PyVal.pfloat 1)).1 ∧
    Event.removeFile 1 ∉ (process_video_concatenate env_transcode_fail 2 false
      (PyVal.pstr "fade") (PyVal.pfloat 1)).1 :=
  ⟨rfl, by decide, by decide, by decide, by decide⟩

/-- Claim C7, amended: input files are removed (best-effort, removal
outcomes never influencing the result) only once the pipeline reaches
the cleanup phase: on success and on the final output-missing check
every input gets a removal attempt, while on any earlier failure
(download, probe, parameter shape, float conversion, transcode) no
removal is attempted at all. -/
theorem c7_amended_cleanup (env : Env) (n : ℕ) (ut : Bool) (v dv : PyVal) :
    ((process_video_concatenate env n ut v dv).2 = Except.ok () →
      ∀ i, i < n →
        Event.removeFile i ∈ (process_video_concatenate env n ut v dv).1) ∧
    ((process_video_concatenate env n ut v dv).2
        = Except.error ConcatError.outputMissing →
      ∀ i, i < n →
        Event.removeFile i ∈ (process_video_concatenate env n ut v dv).1) ∧
    (∀ e, (process_video_concatenate env n ut v dv).2 = Except.error e →
      e ≠ ConcatError.outputMissing →
      ∀ i, Event.removeFile i ∉ (process_video_concatenate env n ut v dv).1) ∧
    (∀ f, (process_video_concatenate { env with remove_ok := f } n ut v dv).2
      = (process_video_concatenate env n ut v dv).2) := by
  rcases driver_exit_cases env n ut v dv with ⟨evs, heq, _⟩ | ⟨e, hne, herr, hnr⟩
  · refine ⟨?_, ?_, ?_, fun f => rfl⟩
    · intro _ i hi
      rw [heq]
      exact cleanup_and_check_removes env evs n i hi
    · intro _ i hi
      rw [heq]
      exact cleanup_and_check_removes env evs n i hi
    · intro e2 he2 hne2 i
      rw [heq] at he2
      rcases cleanup_and_check_result env evs n with h | h
      · rw [he2] at h
        exact absurd h (by simp)
      · rw [he2] at h
        simp only [Except.error.injEq] at h
        exact absurd h hne2
  · refine ⟨?_, ?_, ?_, fun f => rfl⟩
    · intro hok
      rw [herr] at hok
      exact absurd hok (by simp)
    · intro hom
      rw [herr] at hom
      simp only [Except.error.injEq] at hom
      exact absurd hom hne
    · intro e2 _ _ i
      exact hnr i

end NCAT

namespace NCAT

/-- Claim C7 witness: a fully successful single-clip run attempts
removal of its input file. -/
theorem c7_witness :
    Event.removeFile 0 ∈ (process_video_concatenate env_allok 1 false
      (PyVal.pstr "fade") (PyVal.pfloat 1)).1 :=
  (c7_amended_cleanup env_allok 1 false (PyVal.pstr "fade") (PyVal.pfloat 1)).1
    rfl 0 (by decide)

end NCAT
